import Mathlib

/-!
# Shallow embedding of the Space Exploration chatbot pipeline

This file embeds the RAG orchestration pipeline of
`SpaceExplorationllama3/space_chatbot.py` (and, where the behaviour differs,
`SpaceExplorationGroqAi/space_chatbot.py`) in Lean 4 and proves properties of
the embedded definitions.

Modelling conventions:
* A Python `dict` (insertion-ordered since Python 3.7) is embedded as an
  association list `List (String × String)` kept in insertion order with
  unique keys.  `dict.get` is `dictGet`, `d[k] = v` is `dictSet` (in-place
  update keeps the position of an existing key, a new key is appended at the
  end), and `d.pop(next(iter(d)))` removes the head of the list.
* `hashlib.md5(x).hexdigest()` is a fixed deterministic function of `x`; the
  embedding is parameterised by an arbitrary `hash : String → String` in its
  place, so every theorem below holds for the real md5 hex digest as a special
  case.  Witnesses instantiate `hash` with the identity function.
* Python `str.strip()` is `pyStrip` (drop leading and trailing whitespace)
  and `str.lower()` is `pyLower` (character-wise lower-casing), defined below
  directly over the character list of a string.
* The LCEL chain `self.chain` (retriever | prompt | llm | parser) is an
  external effectful collaborator; it is embedded as an oracle
  `chain : String → Except String String` where `Except.error e` stands for
  the chain raising an exception whose `str(e)` is `e`.  Each call of
  `chain.invoke` is counted in the `llm_calls` field of the result, so
  "retrieval and generation were skipped" is `llm_calls = 0`.
-/

set_option autoImplicit false

namespace SpaceChatbot

/-- Python `str.lower()`: lower-case every character. -/
def pyLower (s : String) : String :=
  String.mk (s.data.map Char.toLower)

/-- Python `str.strip()`: remove leading and trailing whitespace. -/
def pyStrip (s : String) : String :=
  String.mk (((s.data.dropWhile Char.isWhitespace).reverse.dropWhile
    Char.isWhitespace).reverse)

/-- Lookup in an insertion-ordered Python dict: `d.get(k)`. -/
def dictGet (d : List (String × String)) (k : String) : Option String :=
  match d with
  | [] => none
  | (k', v) :: rest => if k' = k then some v else dictGet rest k

/-- Assignment in an insertion-ordered Python dict: `d[k] = v`.
An existing key keeps its position and gets the new value; a fresh key is
appended at the end. -/
def dictSet (d : List (String × String)) (k v : String) : List (String × String) :=
  match d with
  | [] => [(k, v)]
  | (k', v') :: rest => if k' = k then (k, v) :: rest else (k', v') :: dictSet rest k v

/-- The keys of a dict, in insertion order. -/
def dictKeys (d : List (String × String)) : List String :=
  d.map Prod.fst


/-!
## `ResponseCache` (SpaceExplorationllama3/space_chatbot.py, lines 65-87)

`self.cache` is a Python dict in insertion order; `max_size` defaults to 50.
`set` first checks `len(self.cache) >= self.max_size` and in that case pops
the first-inserted key (`self.cache.pop(next(iter(self.cache)))`), then
assigns `self.cache[key] = response`.  On an empty dict with `max_size = 0`
the `pop` would raise `StopIteration`; that configuration is unreachable in
the program (the cache is always constructed with `max_size = 50`), and the
theorems touching eviction assume `1 ≤ max_size` so that the popped dict is
provably nonempty.
-/

structure ResponseCache where
  cache : List (String × String)
  max_size : Nat
deriving DecidableEq

/-- `ResponseCache.get_key`: `hashlib.md5(query.lower().strip().encode()).hexdigest()`,
with the md5 hex digest abstracted as the parameter `hash`. -/
def ResponseCache.get_key (hash : String → String) (query : String) : String :=
  hash (pyStrip (pyLower query))

/-- `ResponseCache.get`: `self.cache.get(self.get_key(query))` — a pure read,
no mutation of the cache. -/
def ResponseCache.get (hash : String → String) (c : ResponseCache) (query : String) :
    Option String :=
  dictGet c.cache (ResponseCache.get_key hash query)

/-- `ResponseCache.set`: evict the first-inserted entry when already at
`max_size`, then assign under the derived key. -/
def ResponseCache.set (hash : String → String) (c : ResponseCache) (query response : String) :
    ResponseCache :=
  let key := ResponseCache.get_key hash query
  let evicted := if c.max_size ≤ c.cache.length then c.cache.tail else c.cache
  { c with cache := dictSet evicted key response }

/-- `ResponseCache.clear`: `self.cache = {}` (`max_size` is untouched). -/
def ResponseCache.clear (c : ResponseCache) : ResponseCache :=
  { c with cache := [] }

/-- A fresh `ResponseCache()` as constructed by the chatbot: empty dict,
default `max_size = 50`. -/
def ResponseCache.fresh : ResponseCache :=
  { cache := [], max_size := 50 }

/-!
## Conversation history (`InMemoryChatMessageHistory`) and chat messages
-/

inductive Role where
  | user
  | assistant
deriving DecidableEq

structure Message where
  role : Role
  content : String
deriving DecidableEq

/-- `HumanMessage(content=c)`. -/
def HumanMessage (c : String) : Message := ⟨Role.user, c⟩

/-- `AIMessage(content=c)`. -/
def AIMessage (c : String) : Message := ⟨Role.assistant, c⟩

/-- The history is a strict alternation of user/assistant pairs (user first,
even length). -/
def alternatesPairs : List Message → Bool
  | [] => true
  | ⟨Role.user, _⟩ :: ⟨Role.assistant, _⟩ :: rest => alternatesPairs rest
  | _ => false

/-!
## The chatbot state and `chat` (SpaceExplorationllama3/space_chatbot.py, lines 215-266)
-/

/-- The mutable state of a `SpaceExplorationChatbot` that `chat`,
`get_history` and `clear_history` read and write: the response cache and the
message history.  The vector store, retriever and LLM are immutable external
collaborators bundled into the `chain` oracle. -/
structure ChatState where
  response_cache : ResponseCache
  messages : List Message
deriving DecidableEq

/-- The result of one `chat` call: the returned string, the successor state,
and how many times `self.chain.invoke` ran (0 = retrieval and generation
skipped). -/
structure ChatResult where
  response : String
  state : ChatState
  llm_calls : Nat
deriving DecidableEq

/-- Python truthiness of `cached_response` in `if cached_response:` —
`None` and the empty string are falsy. -/
def optTruthy : Option String → Bool
  | none => false
  | some s => !(s == "")

/-- `SpaceExplorationChatbot.chat` (llama3 variant).  The `try` body:
cache lookup, on a truthy hit append the user/assistant pair and return the
cached response; on a miss invoke the chain, cache the response, append the
pair and return it.  The `except` branch returns `f"Error: {str(e)}"` —
note it performs no cache write and no history append. -/
def chat (hash : String → String) (chain : String → Except String String)
    (s : ChatState) (user_message : String) : ChatResult :=
  let cached_response := s.response_cache.get hash user_message
  if optTruthy cached_response then
    { response := cached_response.getD ""
      state := { s with
        messages := s.messages ++
          [HumanMessage user_message, AIMessage (cached_response.getD "")] }
      llm_calls := 0 }
  else
    match chain user_message with
    | Except.ok response =>
        { response := response
          state :=
            { response_cache := s.response_cache.set hash user_message response
              messages := s.messages ++ [HumanMessage user_message, AIMessage response] }
          llm_calls := 1 }
    | Except.error e =>
        { response := "Error: " ++ e
          state := s
          llm_calls := 1 }

/-- Iterated `chat` calls (the state threaded through, responses discarded). -/
def runChats (hash : String → String) (chain : String → Except String String) :
    ChatState → List String → ChatState
  | s, [] => s
  | s, q :: qs => runChats hash chain (chat hash chain s q).state qs

/-- `SpaceExplorationChatbot.get_history` (lines 248-260): sentinel on empty
history, otherwise a header followed by numbered Q/A pairs (a trailing lone
message is skipped by the `i + 1 < len` guard). -/
def formatQAPairs : Nat → List Message → String
  | _, [] => ""
  | _, [_] => ""
  | n, m₁ :: m₂ :: rest =>
      "Q" ++ toString n ++ ": " ++ m₁.content ++ "\n" ++
      "A" ++ toString n ++ ": " ++ m₂.content ++ "\n\n" ++
      formatQAPairs (n + 1) rest

def get_history (s : ChatState) : String :=
  if s.messages.isEmpty then "No conversation history yet."
  else "Chat History\n" ++ "----------------------------------------" ++ "\n\n" ++
    formatQAPairs 1 s.messages

/-- `SpaceExplorationChatbot.clear_history` (lines 262-266): clears both the
message history and the response cache, returns a status string. -/
def clear_history (s : ChatState) : String × ChatState :=
  ("Chat history and cache cleared.",
   { response_cache := s.response_cache.clear, messages := [] })

/-- The chatbot state right after a successful `__init__` over the same
index: fresh `InMemoryChatMessageHistory()` and fresh `ResponseCache()`. -/
def freshChatState : ChatState :=
  { response_cache := ResponseCache.fresh, messages := [] }

/-- `process_query` in `create_gradio_interface` (lines 272-277): rejects an
input that is empty after `strip()` without calling `chat`, otherwise
forwards to `chat` and returns the response together with the rendered
history. -/
def process_query (hash : String → String) (chain : String → Except String String)
    (s : ChatState) (user_input : String) : (String × String) × ChatState × Nat :=
  if pyStrip user_input = "" then
    (("", get_history s), s, 0)
  else
    let r := chat hash chain s user_input
    ((r.response, get_history r.state), r.state, r.llm_calls)

end SpaceChatbot

/-!
## The Groq variant (SpaceExplorationGroqAi/space_chatbot.py)

Same pipeline without a response cache: `chat` (lines 200-214) invokes the
chain, appends the user/assistant pair on success, and on an exception
returns `f"Error: {str(e)}"` without touching the history.
-/

namespace Groq

structure ChatState where
  messages : List SpaceChatbot.Message
deriving DecidableEq

structure ChatResult where
  response : String
  state : ChatState
  llm_calls : Nat
deriving DecidableEq

/-- `SpaceExplorationChatbot.chat` (Groq variant, lines 200-214). -/
def chat (chain : String → Except String String) (s : ChatState)
    (user_message : String) : ChatResult :=
  match chain user_message with
  | Except.ok response =>
      { response := response
        state := { messages := s.messages ++
          [SpaceChatbot.HumanMessage user_message, SpaceChatbot.AIMessage response] }
        llm_calls := 1 }
  | Except.error e =>
      { response := "Error: " ++ e
        state := s
        llm_calls := 1 }

def runChats (chain : String → Except String String) :
    ChatState → List String → ChatState
  | s, [] => s
  | s, q :: qs => runChats chain (chat chain s q).state qs

/-- `get_history` (Groq variant, lines 216-228) — same formatting as the
llama3 variant. -/
def get_history (s : ChatState) : String :=
  if s.messages.isEmpty then "No conversation history yet."
  else "Chat History\n" ++ "----------------------------------------" ++ "\n\n" ++
    SpaceChatbot.formatQAPairs 1 s.messages

/-- `process_query` (Groq variant, lines 239-244). -/
def process_query (chain : String → Except String String) (s : ChatState)
    (user_input : String) : (String × String) × ChatState × Nat :=
  if SpaceChatbot.pyStrip user_input = "" then
    (("", get_history s), s, 0)
  else
    let r := chat chain s user_input
    ((r.response, get_history r.state), r.state, r.llm_calls)

end Groq

namespace SpaceChatbot

/-!
## Initialization (`SpaceExplorationChatbot.__init__`, llama3 lines 93-138)

`__init__` runs `_load_and_split_pdf`, `_initialize_vector_store`,
`_initialize_llm`, `_create_rag_chain` inside a `try`; the `except` prints a
diagnostic and re-`raise`s the same exception.  `_load_and_split_pdf` raises
`FileNotFoundError(f"PDF not found: {path}")` when the source file is
missing.  The external loader, embedding service, LLM constructor and chain
constructor are oracles whose outcomes parameterise the embedding.
-/

inductive InitError where
  | fileNotFound (msg : String)
  | loadError (msg : String)
  | vectorStoreError (msg : String)
  | llmError (msg : String)
  | chainError (msg : String)

/-- Outcomes of the external steps taken during `__init__`. -/
structure InitOutcomes where
  pdf_exists : Bool
  load_result : Except String (List String)
  vector_store_result : Except String Unit
  llm_result : Except String Unit
  chain_result : Except String Unit

/-- `_load_and_split_pdf` (lines 118-138): missing file raises
`FileNotFoundError`; on success the pages are split into chunks (the
splitter itself is pure and total). -/
def load_and_split_pdf (pdf_path : String) (o : InitOutcomes) :
    Except InitError (List String) :=
  if o.pdf_exists = false then
    Except.error (InitError.fileNotFound ("PDF not found: " ++ pdf_path))
  else
    match o.load_result with
    | Except.ok pages => Except.ok pages
    | Except.error e => Except.error (InitError.loadError e)

/-- A fully initialized chatbot: `Except.ok` carries the ready state, and an
error carries no chatbot at all — there is no partially-ready value. -/
structure ReadyChatbot where
  documents : List String
  state : ChatState

/-- `SpaceExplorationChatbot.__init__` (lines 93-116): the four steps in
order; the first failure short-circuits and is re-raised unchanged. -/
def chatbot_init (pdf_path : String) (o : InitOutcomes) :
    Except InitError ReadyChatbot :=
  match load_and_split_pdf pdf_path o with
  | Except.error e => Except.error e
  | Except.ok docs =>
    match o.vector_store_result with
    | Except.error e => Except.error (InitError.vectorStoreError e)
    | Except.ok _ =>
      match o.llm_result with
      | Except.error e => Except.error (InitError.llmError e)
      | Except.ok _ =>
        match o.chain_result with
        | Except.error e => Except.error (InitError.chainError e)
        | Except.ok _ => Except.ok ⟨docs, freshChatState⟩

/-- `Except` success test. -/
def exceptOk {ε α : Type} : Except ε α → Bool
  | Except.ok _ => true
  | Except.error _ => false

/-!
## Sequences of cache operations

`ResponseCache.get` only reads (`self.cache.get(key)` mutates nothing), so a
mixed run of `set`/`get` calls changes the cache exactly as the `set` calls
alone do; `runOps` is the straightforward embedding of executing the calls in
order.
-/

/-- Iterated `ResponseCache.set` calls, in order. -/
def setMany (hash : String → String) : ResponseCache → List (String × String) → ResponseCache
  | c, [] => c
  | c, (q, r) :: rest => setMany hash (c.set hash q r) rest

/-- One cache call: either `set(query, response)` or `get(query)`. -/
inductive CacheOp where
  | opset (query response : String)
  | opget (query : String)

/-- The `set` calls of a run, in order. -/
def setsOf : List CacheOp → List (String × String)
  | [] => []
  | CacheOp.opset q r :: rest => (q, r) :: setsOf rest
  | CacheOp.opget _ :: rest => setsOf rest

/-- Execute a run of cache calls.  `get` performs a pure dict read and leaves
the state as it was. -/
def runOps (hash : String → String) : ResponseCache → List CacheOp → ResponseCache
  | c, [] => c
  | c, CacheOp.opset q r :: rest => runOps hash (c.set hash q r) rest
  | c, CacheOp.opget _ :: rest => runOps hash c rest

/-!
## Concrete collaborators used to instantiate the theorems
-/

/-- Stand-in for the md5 hex digest in concrete instantiations: any
deterministic function works, the identity in particular. -/
def idHash : String → String := fun s => s

/-- A chain whose `invoke` always raises an exception rendered as `boom`. -/
def boomChain : String → Except String String := fun _ => Except.error "boom"

/-- A chain whose `invoke` always returns the empty string. -/
def emptyRespChain : String → Except String String := fun _ => Except.ok ""

/-- A chain whose `invoke` always returns a fixed non-empty answer. -/
def moonChain : String → Except String String := fun _ => Except.ok "The Moon."

end SpaceChatbot

/-!
# Theorems

Helper lemmas about the embedded operations, followed by one theorem (plus
witness / counterexample where applicable) per verified property.
-/

namespace SpaceChatbot

@[simp] theorem dictGet_nil (k : String) : dictGet [] k = none := rfl

@[simp] theorem dictKeys_nil : dictKeys [] = [] := rfl

@[simp] theorem dictKeys_cons (k v : String) (d : List (String × String)) :
    dictKeys ((k, v) :: d) = k :: dictKeys d := rfl

@[simp] theorem dictKeys_append (d₁ d₂ : List (String × String)) :
    dictKeys (d₁ ++ d₂) = dictKeys d₁ ++ dictKeys d₂ := by
  simp [dictKeys]

theorem dictGet_dictSet_self (d : List (String × String)) (k v : String) :
    dictGet (dictSet d k v) k = some v := by
  induction d with
  | nil => simp [dictSet, dictGet]
  | cons p rest ih =>
    obtain ⟨k', v'⟩ := p
    by_cases h : k' = k
    · simp [dictSet, dictGet, h]
    · simp [dictSet, dictGet, h, ih]

theorem dictGet_dictSet_ne (d : List (String × String)) (k v k' : String)
    (h : k' ≠ k) : dictGet (dictSet d k v) k' = dictGet d k' := by
  induction d with
  | nil => simp [dictSet, dictGet, Ne.symm h]
  | cons p rest ih =>
    obtain ⟨k₀, v₀⟩ := p
    by_cases h₀ : k₀ = k
    · subst h₀
      simp [dictSet, dictGet, Ne.symm h]
    · simp [dictSet, dictGet, h₀, ih]

theorem dictGet_eq_none_of_not_mem (d : List (String × String)) (k : String)
    (h : k ∉ dictKeys d) : dictGet d k = none := by
  induction d with
  | nil => rfl
  | cons p rest ih =>
    obtain ⟨k', v'⟩ := p
    simp only [dictKeys_cons, List.mem_cons, not_or] at h
    simp [dictGet, Ne.symm h.1, ih h.2]

theorem dictGet_isSome_of_mem (d : List (String × String)) (k : String)
    (h : k ∈ dictKeys d) : (dictGet d k).isSome := by
  induction d with
  | nil => simp [dictKeys] at h
  | cons p rest ih =>
    obtain ⟨k', v'⟩ := p
    by_cases hk : k' = k
    · simp [dictGet, hk]
    · simp only [dictKeys_cons, List.mem_cons] at h
      rcases h with h | h

      · exact absurd h.symm hk
      · simp [dictGet, hk, ih h]

theorem dictSet_eq_append_of_not_mem (d : List (String × String)) (k v : String)
    (h : k ∉ dictKeys d) : dictSet d k v = d ++ [(k, v)] := by
  induction d with
  | nil => rfl
  | cons p rest ih =>
    obtain ⟨k', v'⟩ := p
    simp only [dictKeys_cons, List.mem_cons, not_or] at h
    simp [dictSet, Ne.symm h.1, ih h.2]

theorem dictSet_length_of_mem (d : List (String × String)) (k v : String)
    (h : k ∈ dictKeys d) : (dictSet d k v).length = d.length := by
  induction d with
  | nil => simp [dictKeys] at h
  | cons p rest ih =>
    obtain ⟨k', v'⟩ := p
    by_cases hk : k' = k
    · simp [dictSet, hk]
    · simp only [dictKeys_cons, List.mem_cons] at h
      rcases h with h | h
      · exact absurd h.symm hk
      · simp [dictSet, hk, ih h]

theorem alternatesPairs_append_pair (u a : String) :
    ∀ xs : List Message,
      alternatesPairs (xs ++ [HumanMessage u, AIMessage a]) = alternatesPairs xs
  | [] => rfl
  | [⟨r, c⟩] => by cases r <;> rfl
  | ⟨r₁, c₁⟩ :: ⟨r₂, c₂⟩ :: rest => by
      cases r₁ <;> cases r₂
      · rfl
      · simp only [List.cons_append, alternatesPairs]
        exact alternatesPairs_append_pair u a rest
      · rfl
      · rfl

theorem alternatesPairs_chat (hash : String → String)
    (chain : String → Except String String) (s : ChatState) (q : String)
    (h : alternatesPairs s.messages = true) :
    alternatesPairs (chat hash chain s q).state.messages = true := by
  by_cases hc : optTruthy (s.response_cache.get hash q) = true
  · simp only [chat, hc, if_true]
    simpa [alternatesPairs_append_pair] using h
  · rw [Bool.not_eq_true] at hc
    cases hchain : chain q with
    | ok r =>
        simp only [chat, hc, Bool.false_eq_true, if_false, hchain]
        simpa [alternatesPairs_append_pair] using h
    | error e =>
        simp only [chat, hc, Bool.false_eq_true, if_false, hchain]
        exact h

theorem alternatesPairs_runChats (hash : String → String)
    (chain : String → Except String String) :
    ∀ (qs : List String) (s : ChatState), alternatesPairs s.messages = true →
      alternatesPairs (runChats hash chain s qs).messages = true
  | [], _, h => h
  | q :: qs, s, h =>
      alternatesPairs_runChats hash chain qs (chat hash chain s q).state
        (alternatesPairs_chat hash chain s q h)

theorem groq_alternatesPairs_chat (chain : String → Except String String)
    (s : Groq.ChatState) (q : String) (h : alternatesPairs s.messages = true) :
    alternatesPairs (Groq.chat chain s q).state.messages = true := by
  cases hchain : chain q with
  | ok r =>
      simp only [Groq.chat, hchain]
      simpa [alternatesPairs_append_pair] using h
  | error e =>
      simp only [Groq.chat, hchain]
      exact h

theorem groq_alternatesPairs_runChats (chain : String → Except String String) :
    ∀ (qs : List String) (s : Groq.ChatState), alternatesPairs s.messages = true →
      alternatesPairs (Groq.runChats chain s qs).messages = true
  | [], _, h => h
  | q :: qs, s, h =>
      groq_alternatesPairs_runChats chain qs (Groq.chat chain s q).state
        (groq_alternatesPairs_chat chain s q h)

/-- C2: on a query where the generative chain raises an exception, `chat`
inserts nothing into the response cache (the whole state is untouched) and
returns the rendered error text, marked with `Error: `, as an ordinary string
instead of propagating the exception (`chat` is a total function into
`ChatResult`). -/
theorem chat_error_no_cache_write (hash : String → String)
    (chain : String → Except String String) (s : ChatState) (q e : String)
    (hmiss : optTruthy (s.response_cache.get hash q) = false)
    (hfail : chain q = Except.error e) :
    (chat hash chain s q).state.response_cache = s.response_cache ∧
    (chat hash chain s q).state = s ∧
    (chat hash chain s q).response = "Error: " ++ e := by
  simp [chat, hmiss, hfail]

/-- Witness for C2 at a concrete failing query. -/
theorem chat_error_no_cache_write_witness :
    optTruthy (freshChatState.response_cache.get idHash "q") = false ∧
    boomChain "q" = Except.error "boom" ∧
    ((chat idHash boomChain freshChatState "q").state.response_cache =
        freshChatState.response_cache ∧
      (chat idHash boomChain freshChatState "q").state = freshChatState ∧
      (chat idHash boomChain freshChatState "q").response = "Error: " ++ "boom") :=
  ⟨by decide, rfl,
    chat_error_no_cache_write idHash boomChain freshChatState "q" "boom" (by decide) rfl⟩

/-- C5: two queries that agree after lower-casing and stripping surrounding
whitespace get the same cache key from `get_key`, so an entry cached under
one form via `set` is returned by `get` on the other form. -/
theorem get_key_normalizes (hash : String → String) (q₁ q₂ r : String)
    (c : ResponseCache)
    (hnorm : pyStrip (pyLower q₁) = pyStrip (pyLower q₂)) :
    ResponseCache.get_key hash q₁ = ResponseCache.get_key hash q₂ ∧
    (c.set hash q₁ r).get hash q₂ = some r := by
  have hkey : ResponseCache.get_key hash q₁ = ResponseCache.get_key hash q₂ := by
    unfold ResponseCache.get_key
    rw [hnorm]
  refine ⟨hkey, ?_⟩
  simp only [ResponseCache.set, ResponseCache.get]
  rw [← hkey]
  exact dictGet_dictSet_self _ _ _

/-- Witness for C5: `Mars?` and ` MARS? ` resolve to one entry. -/
theorem get_key_normalizes_witness :
    pyStrip (pyLower "Mars?") = pyStrip (pyLower " MARS? ") ∧
    (ResponseCache.get_key idHash "Mars?" = ResponseCache.get_key idHash " MARS? " ∧
      (ResponseCache.fresh.set idHash "Mars?" "the red planet").get idHash " MARS? " =
        some "the red planet") :=
  ⟨by decide,
    get_key_normalizes idHash "Mars?" " MARS? " "the red planet" ResponseCache.fresh
      (by decide)⟩

/-- C9: when the cached response stored for a query is the empty string, the
truthiness test `if cached_response:` fails, so `chat` treats the query as a
cache miss: it invokes the chain again (retrieval and generation run,
`llm_calls = 1`) and, on success, returns and re-caches the fresh response
instead of returning the cached empty one. -/
theorem empty_cached_response_is_miss (hash : String → String)
    (chain : String → Except String String) (s : ChatState) (q : String)
    (hc : s.response_cache.get hash q = some "") :
    (chat hash chain s q).llm_calls = 1 ∧
    (∀ r, chain q = Except.ok r →
      (chat hash chain s q).response = r ∧
      (chat hash chain s q).state.response_cache.get hash q = some r) := by
  have htr : optTruthy (s.response_cache.get hash q) = false := by
    rw [hc]
    rfl
  constructor
  · cases hchain : chain q with
    | ok r => simp [chat, htr, hchain]
    | error e => simp [chat, htr, hchain]
  · intro r hok
    constructor
    · simp [chat, htr, hok]
    · simp only [chat, htr, Bool.false_eq_true, if_false, hok]
      simp only [ResponseCache.set, ResponseCache.get]
      exact dictGet_dictSet_self _ _ _

/-- Witness for C9: an empty string cached under the key of `q` makes the
next `chat` on `q` call the chain again. -/
theorem empty_cached_response_is_miss_witness :
    (ChatState.mk ⟨[("q", "")], 50⟩ []).response_cache.get idHash "q" = some "" ∧
    moonChain "q" = Except.ok "The Moon." ∧
    ((chat idHash moonChain (ChatState.mk ⟨[("q", "")], 50⟩ []) "q").llm_calls = 1 ∧
      (chat idHash moonChain (ChatState.mk ⟨[("q", "")], 50⟩ []) "q").response = "The Moon." ∧
      (chat idHash moonChain
          (ChatState.mk ⟨[("q", "")], 50⟩ []) "q").state.response_cache.get idHash "q" =
        some "The Moon.") := by
  have h := empty_cached_response_is_miss idHash moonChain
    (ChatState.mk ⟨[("q", "")], 50⟩ []) "q" (by decide)
  exact ⟨by decide, rfl, h.1, (h.2 "The Moon." rfl).1, (h.2 "The Moon." rfl).2⟩

/-- C6: an empty or whitespace-only input is rejected by `process_query`
before `chat` is ever called, in both program variants: the chain is not
invoked, the state (response cache and history) is unchanged, and no history
entry is recorded. -/
theorem process_query_empty_input_noop (hash : String → String)
    (chain : String → Except String String) (s : ChatState)
    (gs : Groq.ChatState) (u : String) (hempty : pyStrip u = "") :
    process_query hash chain s u = (("", get_history s), s, 0) ∧
    Groq.process_query chain gs u = (("", Groq.get_history gs), gs, 0) := by
  constructor
  · simp [process_query, hempty]
  · simp [Groq.process_query, hempty]

/-- Witness for C6 on a whitespace-only input. -/
theorem process_query_empty_input_noop_witness :
    pyStrip "   " = "" ∧
    (process_query idHash moonChain freshChatState "   " =
        (("", get_history freshChatState), freshChatState, 0) ∧
      Groq.process_query moonChain (Groq.ChatState.mk []) "   " =
        (("", Groq.get_history (Groq.ChatState.mk [])), Groq.ChatState.mk [], 0)) :=
  ⟨by decide,
    process_query_empty_input_noop idHash moonChain freshChatState
      (Groq.ChatState.mk []) "   " (by decide)⟩

/-- C7: `clear_history` empties both the message history and the response
cache and returns the status string; `get_history` right after it yields the
no-history sentinel, and since the cleared state coincides with the state of
a fresh session over the same index, any subsequent `chat` behaves exactly as
in a fresh session. -/
theorem clear_then_history_sentinel_fresh (hash : String → String)
    (chain : String → Except String String) (s : ChatState) (q : String)
    (hmax : s.response_cache.max_size = 50) :
    (clear_history s).1 = "Chat history and cache cleared." ∧
    get_history (clear_history s).2 = "No conversation history yet." ∧
    (clear_history s).2 = freshChatState ∧
    chat hash chain (clear_history s).2 q = chat hash chain freshChatState q := by
  have hstate : (clear_history s).2 = freshChatState := by
    obtain ⟨⟨cc, cm⟩, msgs⟩ := s
    have hcm : cm = 50 := hmax
    subst hcm
    rfl
  refine ⟨rfl, ?_, hstate, by rw [hstate]⟩
  rw [hstate]
  rfl

/-- Witness for C7 with a non-trivial starting state. -/
theorem clear_then_history_sentinel_fresh_witness :
    (ChatState.mk ⟨[("q", "a")], 50⟩
        [HumanMessage "q", AIMessage "a"]).response_cache.max_size = 50 ∧
    ((clear_history (ChatState.mk ⟨[("q", "a")], 50⟩
        [HumanMessage "q", AIMessage "a"])).1 = "Chat history and cache cleared." ∧
      get_history (clear_history (ChatState.mk ⟨[("q", "a")], 50⟩
        [HumanMessage "q", AIMessage "a"])).2 = "No conversation history yet." ∧
      (clear_history (ChatState.mk ⟨[("q", "a")], 50⟩
        [HumanMessage "q", AIMessage "a"])).2 = freshChatState ∧
      chat idHash moonChain (clear_history (ChatState.mk ⟨[("q", "a")], 50⟩
        [HumanMessage "q", AIMessage "a"])).2 "q" =
        chat idHash moonChain freshChatState "q") :=
  ⟨rfl,
    clear_then_history_sentinel_fresh idHash moonChain
      (ChatState.mk ⟨[("q", "a")], 50⟩ [HumanMessage "q", AIMessage "a"]) "q" rfl⟩

/-- Counterexample to C1 as stated: on a query where the chain raises, `chat`
leaves the history unchanged (here: empty) instead of appending the user
message and the error-carrying assistant message the claim requires. -/
theorem chat_error_drops_history_cex :
    (chat idHash boomChain freshChatState "q").state.messages = [] ∧
    (chat idHash boomChain freshChatState "q").state.messages ≠
      [HumanMessage "q", AIMessage ("Error: " ++ "boom")] :=
  ⟨rfl, by decide⟩

/-- C1 (amended): on a query where the generative chain raises an exception,
`chat` appends nothing to the conversation history and returns the rendered
error text; successful calls append exactly one user message immediately
followed by one assistant message, so after any sequence of `chat` calls
(successes and failures mixed) the history still strictly alternates
user/assistant in call order.  Stated for both program variants. -/
theorem chat_error_appends_nothing_history_alternates
    (hash : String → String) (chain : String → Except String String)
    (s : ChatState) (q e : String) (qs : List String)
    (gs : Groq.ChatState) (gqs : List String)
    (hmiss : optTruthy (s.response_cache.get hash q) = false)
    (hfail : chain q = Except.error e)
    (halt : alternatesPairs s.messages = true)
    (galt : alternatesPairs gs.messages = true) :
    ((chat hash chain s q).state.messages = s.messages ∧
      (chat hash chain s q).response = "Error: " ++ e) ∧
    alternatesPairs (runChats hash chain s qs).messages = true ∧
    ((Groq.chat chain gs q).state.messages = gs.messages ∧
      (Groq.chat chain gs q).response = "Error: " ++ e) ∧
    alternatesPairs (Groq.runChats chain gs gqs).messages = true := by
  refine ⟨⟨?_, ?_⟩, alternatesPairs_runChats hash chain qs s halt, ⟨?_, ?_⟩,
    groq_alternatesPairs_runChats chain gqs gs galt⟩
  · simp [chat, hmiss, hfail]
  · simp [chat, hmiss, hfail]
  · simp [Groq.chat, hfail]
  · simp [Groq.chat, hfail]

/-- Witness for the amended C1 on a concrete failing query and a concrete
mixed sequence of calls. -/
theorem chat_error_appends_nothing_history_alternates_witness :
    optTruthy (freshChatState.response_cache.get idHash "q") = false ∧
    boomChain "q" = Except.error "boom" ∧
    alternatesPairs freshChatState.messages = true ∧
    alternatesPairs (Groq.ChatState.mk []).messages = true ∧
    (((chat idHash boomChain freshChatState "q").state.messages =
        freshChatState.messages ∧
      (chat idHash boomChain freshChatState "q").response = "Error: " ++ "boom") ∧
    alternatesPairs
        (runChats idHash boomChain freshChatState ["a", "b"]).messages = true ∧
    ((Groq.chat boomChain (Groq.ChatState.mk []) "q").state.messages =
        (Groq.ChatState.mk []).messages ∧
      (Groq.chat boomChain (Groq.ChatState.mk []) "q").response = "Error: " ++ "boom") ∧
    alternatesPairs
        (Groq.runChats boomChain (Groq.ChatState.mk []) ["a"]).messages = true) :=
  ⟨by decide, rfl, rfl, rfl,
    chat_error_appends_nothing_history_alternates idHash boomChain freshChatState
      "q" "boom" ["a", "b"] (Groq.ChatState.mk []) ["a"] (by decide) rfl rfl rfl⟩

/-- Counterexample to C3 as stated: when the chain returns the empty string,
asking the same query twice invokes the generative service twice — the first
call caches the empty response, but the truthiness test treats it as a miss
on the second call. -/
theorem repeat_query_empty_response_invokes_twice_cex :
    emptyRespChain "q" = Except.ok "" ∧
    (chat idHash emptyRespChain freshChatState "q").llm_calls = 1 ∧
    (chat idHash emptyRespChain
        (chat idHash emptyRespChain freshChatState "q").state "q").llm_calls = 1 ∧
    (chat idHash emptyRespChain freshChatState "q").llm_calls +
        (chat idHash emptyRespChain
          (chat idHash emptyRespChain freshChatState "q").state "q").llm_calls ≠ 1 :=
  ⟨rfl, rfl, rfl, by decide⟩

/-- C3 (amended): for a query that is not (truthily) cached yet and on which
the chain succeeds with a non-empty response, asking twice invokes the
generative service exactly once: the first `chat` stores the response in the
cache, and the second hits the cache, skips retrieval and generation
(`llm_calls = 0`), appends the user/assistant pair to the history, and
returns a response equal to the first verbatim.  (`1 ≤ max_size` mirrors the
program, whose cache is always constructed with `max_size = 50`; with
`max_size = 0` the eviction in `set` would raise `StopIteration`.) -/
theorem repeat_query_single_invocation (hash : String → String)
    (chain : String → Except String String) (s : ChatState) (q r : String)
    (_hmax : 1 ≤ s.response_cache.max_size)
    (hmiss : optTruthy (s.response_cache.get hash q) = false)
    (hok : chain q = Except.ok r) (hr : r ≠ "") :
    (chat hash chain s q).llm_calls = 1 ∧
    (chat hash chain s q).response = r ∧
    (chat hash chain s q).state.response_cache.get hash q = some r ∧
    (chat hash chain (chat hash chain s q).state q).llm_calls = 0 ∧
    (chat hash chain (chat hash chain s q).state q).response = r ∧
    (chat hash chain (chat hash chain s q).state q).state.messages =
      (chat hash chain s q).state.messages ++ [HumanMessage q, AIMessage r] := by
  have h1 : chat hash chain s q =
      { response := r
        state :=
          { response_cache := s.response_cache.set hash q r
            messages := s.messages ++ [HumanMessage q, AIMessage r] }
        llm_calls := 1 } := by
    simp [chat, hmiss, hok]
  have hget : (s.response_cache.set hash q r).get hash q = some r := by
    simp only [ResponseCache.set, ResponseCache.get]
    exact dictGet_dictSet_self _ _ _
  have htr : optTruthy ((s.response_cache.set hash q r).get hash q) = true := by
    rw [hget]
    simp [optTruthy, hr]
  rw [h1]
  refine ⟨rfl, rfl, hget, ?_, ?_, ?_⟩ <;> simp [chat, htr, hget, optTruthy, hr]

/-- Witness for the amended C3: a fresh session, a chain answering a fixed
non-empty response. -/
theorem repeat_query_single_invocation_witness :
    1 ≤ freshChatState.response_cache.max_size ∧
    optTruthy (freshChatState.response_cache.get idHash "when") = false ∧
    moonChain "when" = Except.ok "The Moon." ∧
    "The Moon." ≠ "" ∧
    ((chat idHash moonChain freshChatState "when").llm_calls = 1 ∧
      (chat idHash moonChain freshChatState "when").response = "The Moon." ∧
      (chat idHash moonChain freshChatState
          "when").state.response_cache.get idHash "when" = some "The Moon." ∧
      (chat idHash moonChain (chat idHash moonChain freshChatState "when").state
          "when").llm_calls = 0 ∧
      (chat idHash moonChain (chat idHash moonChain freshChatState "when").state
          "when").response = "The Moon." ∧
      (chat idHash moonChain (chat idHash moonChain freshChatState "when").state
          "when").state.messages =
        (chat idHash moonChain freshChatState "when").state.messages ++
          [HumanMessage "when", AIMessage "The Moon."]) :=
  ⟨by decide, by decide, rfl, by decide,
    repeat_query_single_invocation idHash moonChain freshChatState "when"
      "The Moon." (by decide) (by decide) rfl (by decide)⟩

/-- C8: every failure during `__init__` propagates to the caller uncaught
(the `except` block re-raises after printing a diagnostic): a missing
ingestion source yields exactly the not-found error, and the initializer
returns a ready chatbot only when every step succeeded — there is no
partially-ready result. -/
theorem init_failure_propagates (pdf_path : String) (o : InitOutcomes) :
    (o.pdf_exists = false →
      chatbot_init pdf_path o =
        Except.error (InitError.fileNotFound ("PDF not found: " ++ pdf_path))) ∧
    (exceptOk (chatbot_init pdf_path o) = true ↔
      o.pdf_exists = true ∧ exceptOk o.load_result = true ∧
        exceptOk o.vector_store_result = true ∧ exceptOk o.llm_result = true ∧
        exceptOk o.chain_result = true) := by
  obtain ⟨pdf, lr, vr, br, cr⟩ := o
  constructor
  · intro h
    have hp : pdf = false := h
    subst hp
    rfl
  · cases pdf <;> cases lr <;> cases vr <;> cases br <;> cases cr <;>
      simp [chatbot_init, load_and_split_pdf, exceptOk]

/-- Witness for C8: the ingestion source file is missing, everything else
would succeed; initialization still aborts with the not-found error. -/
theorem init_failure_propagates_witness :
    (InitOutcomes.mk false (Except.ok ["page"]) (Except.ok ())
        (Except.ok ()) (Except.ok ())).pdf_exists = false ∧
    chatbot_init "space_exploration.pdf"
        (InitOutcomes.mk false (Except.ok ["page"]) (Except.ok ())
          (Except.ok ()) (Except.ok ())) =
      Except.error
        (InitError.fileNotFound ("PDF not found: " ++ "space_exploration.pdf")) :=
  ⟨rfl,
    (init_failure_propagates "space_exploration.pdf"
      (InitOutcomes.mk false (Except.ok ["page"]) (Except.ok ())
        (Except.ok ()) (Except.ok ()))).1 rfl⟩

theorem set_max_size (hash : String → String) (c : ResponseCache) (q r : String) :
    (c.set hash q r).max_size = c.max_size := rfl

theorem setMany_max_size (hash : String → String) :
    ∀ (qs : List (String × String)) (c : ResponseCache),
      (setMany hash c qs).max_size = c.max_size
  | [], _ => rfl
  | (q, r) :: rest, c => setMany_max_size hash rest (c.set hash q r)

theorem setMany_concat (hash : String → String) (qs : List (String × String))
    (q r : String) :
    ∀ c : ResponseCache,
      setMany hash c (qs ++ [(q, r)]) = (setMany hash c qs).set hash q r := by
  induction qs with
  | nil => intro c; rfl
  | cons p rest ih =>
    intro c
    obtain ⟨q', r'⟩ := p
    simp only [List.cons_append, setMany]
    exact ih _

theorem runOps_eq_setMany (hash : String → String) :
    ∀ (ops : List CacheOp) (c : ResponseCache),
      runOps hash c ops = setMany hash c (setsOf ops)
  | [], _ => rfl
  | CacheOp.opset q r :: rest, c => runOps_eq_setMany hash rest (c.set hash q r)
  | CacheOp.opget _ :: rest, c => runOps_eq_setMany hash rest c

theorem dictKeys_map_keyed (hash : String → String) (qs : List (String × String)) :
    dictKeys (qs.map fun p => (ResponseCache.get_key hash p.1, p.2)) =
      qs.map fun p => ResponseCache.get_key hash p.1 := by
  simp [dictKeys, List.map_map]

/-- The shape of the cache after running any sequence of `set` calls with
pairwise-distinct derived keys from the empty cache: the last `min (length,
max_size)` entries, in insertion order — FIFO eviction of the oldest. -/
theorem setMany_fromEmpty_cache (hash : String → String) (m : Nat) (hm : 1 ≤ m)
    (qs : List (String × String)) :
    (qs.map fun p => ResponseCache.get_key hash p.1).Nodup →
    (setMany hash ⟨[], m⟩ qs).cache =
      (qs.map fun p => (ResponseCache.get_key hash p.1, p.2)).drop (qs.length - m) := by
  induction qs using List.reverseRecOn with
  | nil => intro _; simp [setMany]
  | append_singleton qs p ih =>
    intro hnd
    have hnd2 : ((qs.map fun x => ResponseCache.get_key hash x.1) ++
        [ResponseCache.get_key hash p.1]).Nodup := by
      simpa [List.map_append] using hnd
    have hnd' : (qs.map fun x => ResponseCache.get_key hash x.1).Nodup :=
      hnd2.of_append_left
    have hnotmem :
        ResponseCache.get_key hash p.1 ∉ qs.map fun x => ResponseCache.get_key hash x.1 := by
      intro hmem
      rcases List.nodup_append.mp hnd2 with ⟨h1, h2, hdisj⟩
      exact hdisj hmem (List.mem_singleton_self _)
    have hms : (setMany hash ⟨[], m⟩ qs).max_size = m := setMany_max_size hash qs _
    rw [setMany_concat]
    simp only [ResponseCache.set]
    rw [hms, ih hnd']
    have hlen : (qs.map fun p => (ResponseCache.get_key hash p.1, p.2)).length =
        qs.length := List.length_map _ _
    rcases Nat.lt_or_ge qs.length m with hlm | hml
    · have hz : qs.length - m = 0 := by omega
      have hz' : (qs ++ [p]).length - m = 0 := by
        simp only [List.length_append, List.length_cons, List.length_nil]
        omega
      rw [hz, hz', List.drop_zero, List.drop_zero]
      have hcond : ¬ m ≤ (qs.map fun p => (ResponseCache.get_key hash p.1, p.2)).length := by
        rw [hlen]
        omega
      rw [if_neg hcond]
      have hfresh : ResponseCache.get_key hash p.1 ∉
          dictKeys (qs.map fun p => (ResponseCache.get_key hash p.1, p.2)) := by
        rw [dictKeys_map_keyed]
        exact hnotmem
      rw [dictSet_eq_append_of_not_mem _ _ _ hfresh, List.map_append]
      simp
    · have hdlen : ((qs.map fun p => (ResponseCache.get_key hash p.1, p.2)).drop
          (qs.length - m)).length = m := by
        rw [List.length_drop, hlen]
        omega
      have hcond : m ≤ ((qs.map fun p => (ResponseCache.get_key hash p.1, p.2)).drop
          (qs.length - m)).length := Nat.le_of_eq hdlen.symm
      rw [if_pos hcond, List.tail_drop]
      have harith : qs.length - m + 1 = (qs ++ [p]).length - m := by
        simp only [List.length_append, List.length_cons, List.length_nil]
        omega
      rw [harith]
      have hnotmem' : ResponseCache.get_key hash p.1 ∉
          dictKeys (List.drop ((qs ++ [p]).length - m)
            (qs.map fun p => (ResponseCache.get_key hash p.1, p.2))) := by
        intro hmem
        apply hnotmem
        rw [← dictKeys_map_keyed hash qs]
        unfold dictKeys at hmem ⊢
        rw [List.map_drop] at hmem
        exact List.drop_subset _ _ hmem
      rw [dictSet_eq_append_of_not_mem _ _ _ hnotmem']
      have hle : (qs ++ [p]).length - m ≤
          (qs.map fun p => (ResponseCache.get_key hash p.1, p.2)).length := by
        rw [hlen]
        simp only [List.length_append, List.length_cons, List.length_nil]
        omega
      rw [List.map_append, List.drop_append_of_le_length hle]
      simp

/-- C4: running any sequence of cache calls from the empty cache whose `set`
calls insert `max_size + 1` queries with pairwise-distinct derived keys, with
`get` calls interleaved arbitrarily (`get` reads without mutating), leaves
exactly `max_size` entries, and the first-inserted query is absent: eviction
is FIFO by insertion order and insertion order is never refreshed on
access. -/
theorem cache_fifo_bound (hash : String → String) (m : Nat) (hm : 1 ≤ m)
    (ops : List CacheOp) (q₀ r₀ : String) (qrest : List (String × String))
    (hsets : setsOf ops = (q₀, r₀) :: qrest)
    (hlen : qrest.length = m)
    (hnd : ((setsOf ops).map fun p => ResponseCache.get_key hash p.1).Nodup) :
    (runOps hash ⟨[], m⟩ ops).cache.length = m ∧
    (runOps hash ⟨[], m⟩ ops).get hash q₀ = none := by
  have hnd' : (((q₀, r₀) :: qrest).map fun p => ResponseCache.get_key hash p.1).Nodup := by
    rw [← hsets]
    exact hnd
  have hcache := setMany_fromEmpty_cache hash m hm ((q₀, r₀) :: qrest) hnd'
  have hlen1 : ((q₀, r₀) :: qrest).length - m = 1 := by
    simp only [List.length_cons, hlen]
    omega
  rw [hlen1] at hcache
  simp only [List.map_cons, List.drop_succ_cons, List.drop_zero] at hcache
  have hrun : runOps hash ⟨[], m⟩ ops = setMany hash ⟨[], m⟩ ((q₀, r₀) :: qrest) := by
    rw [runOps_eq_setMany, hsets]
  constructor
  · rw [hrun, hcache, List.length_map, hlen]
  · rw [hrun]
    unfold ResponseCache.get
    rw [hcache]
    apply dictGet_eq_none_of_not_mem
    rw [dictKeys_map_keyed]
    have hh := hnd'
    simp only [List.map_cons, List.nodup_cons] at hh
    exact hh.1

/-- Witness for C4: `max_size = 1`, two distinct inserts with a `get` of the
first query in between; the first entry is still the one evicted. -/
theorem cache_fifo_bound_witness :
    setsOf [CacheOp.opset "a" "1", CacheOp.opget "a", CacheOp.opset "b" "2"] =
      ("a", "1") :: [("b", "2")] ∧
    ([(("b" : String), ("2" : String))]).length = 1 ∧
    ((setsOf [CacheOp.opset "a" "1", CacheOp.opget "a", CacheOp.opset "b" "2"]).map
      fun p => ResponseCache.get_key idHash p.1).Nodup ∧
    ((runOps idHash ⟨[], 1⟩
        [CacheOp.opset "a" "1", CacheOp.opget "a", CacheOp.opset "b" "2"]).cache.length = 1 ∧
      (runOps idHash ⟨[], 1⟩
        [CacheOp.opset "a" "1", CacheOp.opget "a",
          CacheOp.opset "b" "2"]).get idHash "a" = none) :=
  ⟨rfl, rfl, by decide,
    cache_fifo_bound idHash 1 (by decide)
      [CacheOp.opset "a" "1", CacheOp.opget "a", CacheOp.opset "b" "2"]
      "a" "1" [("b", "2")] rfl rfl (by decide)⟩

/-- C10: calling `set` on a cache already holding `max_size` entries evicts
the first-inserted entry even when the query's derived key is already
present; when that oldest entry is not the query's own key, the update lands
in place on the surviving entry and the cache afterwards holds
`max_size - 1` entries — an overwrite discards an unrelated cached response
and strictly shrinks the cache below `max_size`. -/
theorem set_overwrite_when_full_evicts_and_shrinks (hash : String → String)
    (c : ResponseCache) (q r k₀ v₀ : String) (rest : List (String × String))
    (hcache : c.cache = (k₀, v₀) :: rest)
    (hfull : c.cache.length = c.max_size)
    (hnd : (dictKeys c.cache).Nodup)
    (hmem : ResponseCache.get_key hash q ∈ dictKeys c.cache)
    (hne : k₀ ≠ ResponseCache.get_key hash q) :
    (c.set hash q r).cache.length = c.max_size - 1 ∧
    dictGet (c.set hash q r).cache k₀ = none := by
  have hmem' : ResponseCache.get_key hash q ∈ dictKeys rest := by
    rw [hcache] at hmem
    simp only [dictKeys_cons, List.mem_cons] at hmem
    rcases hmem with h | h
    · exact absurd h.symm hne
    · exact h
  have hk₀ : k₀ ∉ dictKeys rest := by
    rw [hcache] at hnd
    simp only [dictKeys_cons, List.nodup_cons] at hnd
    exact hnd.1
  have hcond : c.max_size ≤ c.cache.length := Nat.le_of_eq hfull.symm
  have hset : (c.set hash q r).cache = dictSet rest (ResponseCache.get_key hash q) r := by
    simp only [ResponseCache.set]
    rw [if_pos hcond, hcache]
    rfl
  refine ⟨?_, ?_⟩
  · rw [hset, dictSet_length_of_mem _ _ _ hmem']
    have h1 : c.cache.length = rest.length + 1 := by
      rw [hcache]
      rfl
    omega
  · rw [hset, dictGet_dictSet_ne _ _ _ _ hne]
    exact dictGet_eq_none_of_not_mem _ _ hk₀

/-- Witness for C10: a full two-entry cache, overwriting the second entry
evicts the first and leaves a single entry. -/
theorem set_overwrite_when_full_evicts_and_shrinks_witness :
    (ResponseCache.mk [("a", "1"), ("b", "2")] 2).cache = ("a", "1") :: [("b", "2")] ∧
    (ResponseCache.mk [("a", "1"), ("b", "2")] 2).cache.length =
      (ResponseCache.mk [("a", "1"), ("b", "2")] 2).max_size ∧
    (dictKeys (ResponseCache.mk [("a", "1"), ("b", "2")] 2).cache).Nodup ∧
    ResponseCache.get_key idHash "b" ∈
      dictKeys (ResponseCache.mk [("a", "1"), ("b", "2")] 2).cache ∧
    "a" ≠ ResponseCache.get_key idHash "b" ∧
    (((ResponseCache.mk [("a", "1"), ("b", "2")] 2).set idHash "b" "new").cache.length =
        (ResponseCache.mk [("a", "1"), ("b", "2")] 2).max_size - 1 ∧
      dictGet ((ResponseCache.mk [("a", "1"), ("b", "2")] 2).set idHash "b" "new").cache
        "a" = none) :=
  ⟨rfl, rfl, by decide, by decide, by decide,
    set_overwrite_when_full_evicts_and_shrinks idHash
      (ResponseCache.mk [("a", "1"), ("b", "2")] 2) "b" "new" "a" "1" [("b", "2")]
      rfl rfl (by decide) (by decide) (by decide)⟩

end SpaceChatbot
